import Mathlib

/-!
Verification of the phoenixdb Avatica RPC client against its specification.

The Lean definitions below are shallow embeddings of the Python source:
`phoenixdb/avatica.py` (error classification, HTML error-page parsing,
retrying transport), `phoenixdb/cursor.py` (frame pagination, parameter
marshalling, temporal epoch conversions) and `phoenixdb/types.py`
(temporal epoch conversions).  Python machine behaviour relevant here:
Python 2 `/` on ints is floor division, which for positive divisors
coincides with Lean's `Nat` division and with `Int`'s `/` (Euclidean
division, which equals floor division when the divisor is positive).
-/

set_option maxRecDepth 40000

namespace Phoenixdb

/-! ## Error taxonomy (phoenixdb/errors.py)

Each DB-API error class is one constructor; every raised database error
carries the message and, where available, the numeric code and SQLSTATE,
mirroring `error_class(message, code, sqlstate)` in the source. -/

inductive ErrorKind where
  | interfaceError
  | dataError
  | operationalError
  | integrityError
  | internalError
  | programmingError
  | notSupportedError
deriving DecidableEq, Repr

structure SqlError where
  kind : ErrorKind
  message : String
  code : Option Int
  sqlstate : Option String
deriving DecidableEq, Repr

/-! ## SQLSTATE classification (phoenixdb/avatica.py lines 67-111) -/

/-- Embedding of `SQLSTATE_ERROR_CLASSES`: the fixed ordered table of
SQLSTATE prefixes and the error class each one maps to. -/
def SQLSTATE_ERROR_CLASSES : List (String × ErrorKind) :=
  [ ("08", .operationalError),
    ("22018", .integrityError),
    ("22", .dataError),
    ("23", .integrityError),
    ("24", .internalError),
    ("25", .internalError),
    ("42", .programmingError),
    ("XLC", .operationalError),
    ("INT", .internalError) ]

/-- Embedding of Python `s.startswith(pre)`, computed on the character
lists so that it evaluates inside the kernel. -/
def str_startswith (s pre : String) : Bool :=
  pre.data.isPrefixOf s.data

/-- Embedding of `raise_sql_error(code, sqlstate, message)`: scan the table
in order and raise the first class whose prefix starts `sqlstate`; fall
through (return `none`) when no prefix matches. -/
def raise_sql_error (code : Int) (sqlstate message : String) : Option SqlError :=
  (SQLSTATE_ERROR_CLASSES.find? (fun pe => str_startswith sqlstate pe.1)).map
    (fun pe => ⟨pe.2, message, some code, some sqlstate⟩)

/-! ## Embedded-message pattern (phoenixdb/avatica.py line 87)

`parse_and_raise_sql_error` applies
`re.findall(r'(?:([^ ]+): )?ERROR (\d+) \(([0-9A-Z]{5})\): (.*?) ->', message)`
and uses groups 2-4 (code, sqlstate, message) of the first match.  The
matcher below scans left to right for the first position where the core
`ERROR (\d+) \(([0-9A-Z]{5})\): (.*?) ->` matches and returns those three
groups.  The optional exception-name group `(?:([^ ]+): )?` is discarded
by the caller, and it cannot change which core occurrence is matched
first: a `[^ ]+` run contains no space, so it can only sit directly in
front of its own `ERROR` literal and never spans across an earlier
matching occurrence (whose text `ERROR <digits> (` contains spaces). -/

def isDigitChar (c : Char) : Bool := '0' ≤ c && c ≤ '9'

def isStateChar (c : Char) : Bool := ('0' ≤ c && c ≤ '9') || ('A' ≤ c && c ≤ 'Z')

/-- Greedy `\d+`: the maximal run of leading digits and the remainder. -/
def takeDigits : List Char → List Char × List Char
  | [] => ([], [])
  | c :: cs =>
    if isDigitChar c then
      let p := takeDigits cs
      (c :: p.1, p.2)
    else ([], c :: cs)

/-- Drop an expected literal; `none` when the input does not start with it. -/
def dropLit : List Char → List Char → Option (List Char)
  | [], cs => some cs
  | _ :: _, [] => none
  | l :: ls, c :: cs => if c = l then dropLit ls cs else none

/-- Lazy `(.*?) ->`: the characters before the first ` ->`; fails at end of
input or at a newline (`.` in the pattern does not match a newline). -/
def takeUntilArrow : List Char → Option (List Char)
  | ' ' :: '-' :: '>' :: _ => some []
  | c :: cs => if c = '\n' then none else (takeUntilArrow cs).map (fun ms => c :: ms)
  | [] => none

/-- Value of a digit string, as produced by Python `int(code)`. -/
def digitsToNat (ds : List Char) : Nat :=
  ds.foldl (fun n c => n * 10 + (c.toNat - 48)) 0

/-- Match the core pattern `ERROR (\d+) \(([0-9A-Z]{5})\): (.*?) ->` at the
start of the input, returning `(int(code), sqlstate, message)`. -/
def matchErrorAt (cs : List Char) : Option (Int × String × String) := do
  let cs ← dropLit "ERROR ".data cs
  let p := takeDigits cs
  if p.1.isEmpty then none else do
  let cs ← dropLit " (".data p.2
  match cs with
  | a :: b :: c :: d :: e :: cs =>
    if isStateChar a && isStateChar b && isStateChar c && isStateChar d && isStateChar e then do
      let cs ← dropLit "): ".data cs
      let ms ← takeUntilArrow cs
      some ((digitsToNat p.1 : Int), String.mk [a, b, c, d, e], String.mk ms)
    else none
  | _ => none

/-- Leftmost match of the embedded-error pattern, as found by `re.findall`. -/
def find_sql_error_pattern : List Char → Option (Int × String × String)
  | [] => none
  | c :: cs =>
    match matchErrorAt (c :: cs) with
    | some r => some r
    | none => find_sql_error_pattern cs

/-- Embedding of `parse_and_raise_sql_error(message)`: apply the regex; on a
match, classify its code/state/message triple (which may itself fall
through when the state matches no table prefix). -/
def parse_and_raise_sql_error (message : String) : Option SqlError :=
  match find_sql_error_pattern message.data with
  | some csm => raise_sql_error csm.1 csm.2.1 csm.2.2
  | none => none

/-- Embedding of `parse_error_protobuf` after the wire envelope has been
decoded into `(error_code, sql_state, error_message)`: first the regex pass
on the message, then classification of the explicit code/state pair, then
the InternalError fallback carrying the raw message. -/
def parse_error_protobuf (error_code : Int) (sql_state error_message : String) : SqlError :=
  match parse_and_raise_sql_error error_message with
  | some e => e
  | none =>
    match raise_sql_error error_code sql_state error_message with
    | some e => e
    | none => ⟨.internalError, error_message, none, none⟩

/-! ## Jetty error-page parsing (phoenixdb/avatica.py lines 34-99)

`HTMLParser.feed` tokenises the raw HTML into start-tag/end-tag/data
events (stdlib behaviour, modelled as the event list); the
`JettyErrorPageParser` subclass below is the repository's code. -/

inductive HtmlEvent where
  | starttag (tag : String)
  | endtag (tag : String)
  | data (s : String)
deriving DecidableEq, Repr

structure JettyErrorPageParser where
  path : List String := []
  title : List String := []
  message : List String := []
deriving DecidableEq, Repr

/-- Python whitespace as removed by `str.strip()`. -/
def is_py_space (c : Char) : Bool :=
  c = ' ' || c = '\t' || c = '\n' || c = '\r' || c = '\x0b' || c = '\x0c'

/-- Embedding of Python `s.strip()`. -/
def py_strip (s : String) : String :=
  String.mk (((s.data.dropWhile is_py_space).reverse.dropWhile is_py_space).reverse)

/-- Embedding of Python `' '.join(parts)`. -/
def join_space : List String → String
  | [] => ""
  | [s] => s
  | s :: rest => s ++ " " ++ join_space rest

/-- `handle_starttag`: push the tag on the open-tag path. -/
def handle_starttag (p : JettyErrorPageParser) (tag : String) : JettyErrorPageParser :=
  { p with path := p.path ++ [tag] }

/-- `handle_endtag`: pop the open-tag path (the tag argument is unused). -/
def handle_endtag (p : JettyErrorPageParser) (_tag : String) : JettyErrorPageParser :=
  { p with path := p.path.dropLast }

/-- `handle_data`: under `html > body`, collect `h2` text into `title` and
`p > pre` text into `message`, stripping each piece. -/
def handle_data (p : JettyErrorPageParser) (d : String) : JettyErrorPageParser :=
  if 2 < p.path.length ∧ p.path.get? 0 = some "html" ∧ p.path.get? 1 = some "body" then
    if p.path.length = 3 ∧ p.path.get? 2 = some "h2" then
      { p with title := p.title ++ [py_strip d] }
    else if p.path.length = 4 ∧ p.path.get? 2 = some "p" ∧ p.path.get? 3 = some "pre" then
      { p with message := p.message ++ [py_strip d] }
    else p
  else p

/-- `parser.feed(html)`: dispatch the token events in order. -/
def feed (p : JettyErrorPageParser) : List HtmlEvent → JettyErrorPageParser
  | [] => p
  | .starttag t :: es => feed (handle_starttag p t) es
  | .endtag t :: es => feed (handle_endtag p t) es
  | .data d :: es => feed (handle_data p d) es

/-- Embedding of `parse_error_page(html)`: feed the page, and when the title
is exactly `['HTTP ERROR: 500']`, raise from the joined message — via the
embedded pattern when present, else InternalError; `none` means the
function returned without raising. -/
def parse_error_page (events : List HtmlEvent) : Option SqlError :=
  let parser := feed {} events
  if parser.title = ["HTTP ERROR: 500"] then
    let message := py_strip (join_space parser.message)
    some
      (match parse_and_raise_sql_error message with
       | some e => e
       | none => ⟨.internalError, message, none, none⟩)
  else none

/-! ## Transport retry loop (phoenixdb/avatica.py lines 152-177)

`AvaticaClient._post_request` loops: on an `httplib.HTTPException` with
budget left it closes and reopens the connection, sleeps
`math.exp(-retry_count)` seconds and decrements the budget; with no budget
it raises `InterfaceError('RPC request failed', cause=e)`.  On a 503
response with budget left it only sleeps and decrements; with no budget
the 503 response is returned.  Any other response is returned.  The
transport is modelled by the outcome of each successive attempt, and the
side effects are logged; a sleep of `exp(-k)` seconds is logged as its
argument `k` (the remaining budget at that moment). -/

inductive AttemptResult where
  | exn (cause : Nat)
  | response (status : Nat)
deriving DecidableEq, Repr

inductive RetryEvent where
  | reconnectSleep (remainingBudget : Nat)
  | sleepOnly (remainingBudget : Nat)
deriving DecidableEq, Repr

inductive PostOutcome where
  | ok (status : Nat)
  | interfaceError (cause : Nat)
deriving DecidableEq, Repr

def SERVICE_UNAVAILABLE : Nat := 503

/-- Embedding of the `while True` loop of `_post_request`, with the attempt
index `i`, the remaining `retry_count` and the event log made explicit. -/
def post_request (attempts : Nat → AttemptResult) (i retry_count : Nat)
    (log : List RetryEvent) : PostOutcome × List RetryEvent :=
  match attempts i with
  | .exn cause =>
    match retry_count with
    | rc + 1 => post_request attempts (i + 1) rc (log ++ [.reconnectSleep (rc + 1)])
    | 0 => (.interfaceError cause, log)
  | .response status =>
    if status = SERVICE_UNAVAILABLE then
      match retry_count with
      | rc + 1 => post_request attempts (i + 1) rc (log ++ [.sleepOnly (rc + 1)])
      | 0 => (.ok status, log)
    else (.ok status, log)

/-- Remaining-budget annotation of a logged retry event: the sleep it
stands for lasted `exp(-the annotation)` seconds. -/
def RetryEvent.budget : RetryEvent → Nat
  | .reconnectSleep k => k
  | .sleepOnly k => k

/-! ## Cursor frame pagination (phoenixdb/cursor.py lines 288-362)

Rows are opaque (`_transform_row` is independent of pagination).  The
server is modelled by the list of frames it will deliver to successive
`fetch` calls, and each requested fetch offset is logged.  A missing
pending frame stands for the protobuf default frame (offset 0, not done,
no rows); it is never reached in the verified scenarios. -/

structure Frame (α : Type) where
  offset : Nat
  done : Bool
  rows : List α
deriving DecidableEq, Repr

structure CursorState (α : Type) where
  frame : Option (Frame α)
  pos : Option Nat
  pending : List (Frame α)
  fetchLog : List Nat
deriving DecidableEq, Repr

inductive PyErr where
  | programmingError (msg : String)
  | internalError (msg : String)
  | indexError
  | typeError
  | outOfFuel
deriving DecidableEq, Repr

/-- Embedding of `Cursor._set_frame(frame)`: store the frame and reset the
position; a position is established only when the frame has rows.  The
guard raising InternalError on an empty not-done frame exists in the
source only as commented-out code (cursor.py lines 295-297), so this
function never fails. -/
def set_frame {α : Type} (s : CursorState α) (frame : Option (Frame α)) : CursorState α :=
  { s with
    frame := frame
    pos := match frame with
      | none => none
      | some f => if f.rows.isEmpty then none else some 0 }

/-- Embedding of `Cursor.fetchone()`, with `_fetch_next_frame` inlined: on
frame exhaustion of a not-done frame, request the next frame at
`offset = frame.offset + len(frame.rows)` (logged), consume the next
pending server frame and `_set_frame` it. -/
def fetchone {α : Type} (s : CursorState α) : Except PyErr (Option α × CursorState α) :=
  match s.frame with
  | none => .error (.programmingError "no select statement was executed")
  | some f =>
    match s.pos with
    | none => .ok (none, s)
    | some p =>
      match f.rows.get? p with
      | none => .error .indexError
      | some row =>
        if p + 1 ≥ f.rows.length then
          if f.done then
            .ok (some row, { s with pos := none })
          else
            let off := f.offset + f.rows.length
            .ok (some row,
              set_frame
                { s with pending := s.pending.tail, fetchLog := s.fetchLog ++ [off] }
                (some (s.pending.headD ⟨0, false, []⟩)))
        else
          .ok (some row, { s with pos := some (p + 1) })

/-- Row count still reachable from the current state: drives the fuel for
`fetchall`. -/
def rows_remaining {α : Type} (s : CursorState α) : Nat :=
  (match s.frame, s.pos with
   | some f, some p => f.rows.length - p
   | _, _ => 0)
  + (s.pending.map (fun f => f.rows.length)).sum

/-- Fuelled unfolding of the `while True` loop of `Cursor.fetchall()`. -/
def fetchall_aux {α : Type} : Nat → CursorState α → Except PyErr (List α × CursorState α)
  | 0, _ => .error .outOfFuel
  | fuel + 1, s =>
    match fetchone s with
    | .error e => .error e
    | .ok (none, s1) => .ok ([], s1)
    | .ok (some r, s1) =>
      match fetchall_aux fuel s1 with
      | .error e => .error e
      | .ok (rs, s2) => .ok (r :: rs, s2)

/-- Embedding of `Cursor.fetchall()`: loop `fetchone` until it returns
`None`; the fuel bound is sufficient for every terminating run. -/
def fetchall {α : Type} (s : CursorState α) : Except PyErr (List α × CursorState α) :=
  fetchall_aux (rows_remaining s + 1) s

/-- Well-formed continuation of a frame sequence as assumed by the
pagination claim: the current frame is `done` exactly when no frames
follow, every frame with a successor is non-empty, and each successor's
offset is the previous offset plus the previous row count. -/
def well_formed_from {α : Type} (f : Frame α) : List (Frame α) → Bool
  | [] => f.done
  | g :: rest =>
    !f.done && !f.rows.isEmpty && (g.offset == f.offset + f.rows.length)
      && well_formed_from g rest

/-- Cumulative row counts: the fetch offsets the claim predicts, namely
`acc + |F0.rows|, acc + |F0.rows| + |F1.rows|, ...`, one per listed frame. -/
def cumulative_offsets {α : Type} (acc : Nat) : List (Frame α) → List Nat
  | [] => []
  | f :: rest => (acc + f.rows.length) :: cumulative_offsets (acc + f.rows.length) rest

/-! ## Calendar model (Python `datetime`, as used by the temporal helpers)

The temporal helpers in `cursor.py`/`types.py` compute with
`datetime.date`, `datetime.time`, `datetime.datetime` and
`datetime.timedelta`.  CPython identifies a `date` with its proleptic
Gregorian ordinal (`date.toordinal`, days since 0001-01-01 counted from
1); subtraction of dates is subtraction of ordinals, and
`date + timedelta(days=n)` is `date.fromordinal(toordinal + n)`.  The
arithmetic below reproduces CPython's `_is_leap`, `_days_in_month`,
`_days_before_month`, `_days_before_year` and `_ymd2ord`;
`fromOrdinal` computes the inverse of `toOrdinal` (CPython `_ord2ymd`) by
sequential year/month search, which agrees with CPython's divmod tower on
the whole valid range. -/

def isLeapYear (y : Nat) : Bool :=
  decide (y % 4 = 0) && (decide (y % 100 ≠ 0) || decide (y % 400 = 0))

def daysInMonth (y m : Nat) : Nat :=
  if m = 2 then (if isLeapYear y then 29 else 28)
  else if m = 4 ∨ m = 6 ∨ m = 9 ∨ m = 11 then 30
  else 31

/-- CPython's `_DAYS_BEFORE_MONTH` table (with 365 past the last month, a
value used only by the lemmas below). -/
def daysBeforeMonthBase (m : Nat) : Nat :=
  if m = 1 then 0 else if m = 2 then 31 else if m = 3 then 59
  else if m = 4 then 90 else if m = 5 then 120 else if m = 6 then 151
  else if m = 7 then 181 else if m = 8 then 212 else if m = 9 then 243
  else if m = 10 then 273 else if m = 11 then 304 else if m = 12 then 334
  else 365

/-- CPython `_days_before_month(year, month)`. -/
def daysBeforeMonth (y m : Nat) : Nat :=
  daysBeforeMonthBase m + (if 2 < m ∧ isLeapYear y then 1 else 0)

def daysInYear (y : Nat) : Nat :=
  if isLeapYear y then 366 else 365

/-- CPython `_days_before_year(year)`. -/
def daysBeforeYear (y : Nat) : Nat :=
  365 * (y - 1) + (y - 1) / 4 - (y - 1) / 100 + (y - 1) / 400

structure PyDate where
  year : Nat
  month : Nat
  day : Nat
deriving DecidableEq, Repr

/-- Validity of a `datetime.date` (`MINYEAR = 1`, `MAXYEAR = 9999`). -/
def PyDate.Valid (d : PyDate) : Prop :=
  1 ≤ d.year ∧ d.year ≤ 9999 ∧ 1 ≤ d.month ∧ d.month ≤ 12
    ∧ 1 ≤ d.day ∧ d.day ≤ daysInMonth d.year d.month

instance (d : PyDate) : Decidable d.Valid := by
  unfold PyDate.Valid; exact inferInstance

/-- CPython `date.toordinal()` (`_ymd2ord`). -/
def toOrdinal (d : PyDate) : Nat :=
  daysBeforeYear d.year + daysBeforeMonth d.year d.month + d.day

/-- Sequential year search used by `fromOrdinal`: starting at year `y` with
`n` days left, peel whole years off. -/
def yearFromDay (y n : Nat) : Nat → Nat × Nat
  | 0 => (y, n)
  | fuel + 1 =>
    if n ≤ daysInYear y then (y, n) else yearFromDay (y + 1) (n - daysInYear y) fuel

/-- Sequential month search used by `fromOrdinal`: starting at month `m` of
year `y` with `n` days left, peel whole months off. -/
def monthFromDay (y m n : Nat) : Nat → Nat × Nat
  | 0 => (m, n)
  | fuel + 1 =>
    if n ≤ daysInMonth y m then (m, n) else monthFromDay y (m + 1) (n - daysInMonth y m) fuel

/-- CPython `date.fromordinal(n)` (`_ord2ymd`): the unique valid date whose
ordinal is `n` (for `n` in the valid range), found by peeling whole years
(`n` itself bounds the number of year steps) and then whole months. -/
def fromOrdinal (n : Nat) : PyDate :=
  ⟨(yearFromDay 1 n n).1,
   (monthFromDay (yearFromDay 1 n n).1 1 (yearFromDay 1 n n).2 12).1,
   (monthFromDay (yearFromDay 1 n n).1 1 (yearFromDay 1 n n).2 12).2⟩

/-- Calendar successor of a date: the day after, used to state that the
ordinal is an exact day count. -/
def nextDay (d : PyDate) : PyDate :=
  if d.day < daysInMonth d.year d.month then ⟨d.year, d.month, d.day + 1⟩
  else if d.month < 12 then ⟨d.year, d.month + 1, 1⟩
  else ⟨d.year + 1, 1, 1⟩

/-- Ordinal of 1970-01-01, the epoch used by all the java-sql conversions. -/
def EPOCH_ORDINAL : Nat := 719163

structure PyTime where
  hour : Nat
  minute : Nat
  second : Nat
  microsecond : Nat
deriving DecidableEq, Repr

def PyTime.Valid (t : PyTime) : Prop :=
  t.hour ≤ 23 ∧ t.minute ≤ 59 ∧ t.second ≤ 59 ∧ t.microsecond ≤ 999999

instance (t : PyTime) : Decidable t.Valid := by
  unfold PyTime.Valid; exact inferInstance

structure PyDateTime where
  date : PyDate
  time : PyTime
deriving DecidableEq, Repr

def PyDateTime.Valid (dt : PyDateTime) : Prop :=
  dt.date.Valid ∧ dt.time.Valid

instance (dt : PyDateTime) : Decidable dt.Valid := by
  unfold PyDateTime.Valid; exact inferInstance

/-! ## Temporal epoch conversions (cursor.py lines 35-61, types.py lines 70-96)

Python 2 `/` on ints is floor division; all divisors below are positive,
so it is embedded as `Nat` division / Lean `Int` division. -/

/-- Embedding of `time_to_java_sql_time(t)`:
`((t.hour * 60 + t.minute) * 60 + t.second) * 1000 + t.microsecond / 1000`. -/
def time_to_java_sql_time (t : PyTime) : Nat :=
  ((t.hour * 60 + t.minute) * 60 + t.second) * 1000 + t.microsecond / 1000

/-- Embedding of `time_from_java_sql_time(n)`:
`(datetime(1970, 1, 1) + timedelta(milliseconds=n)).time()`, i.e. the
time of day `n` milliseconds after an epoch midnight. -/
def time_from_java_sql_time (n : Nat) : PyTime :=
  let ms := n % 86400000
  ⟨ms / 3600000, ms / 60000 % 60, ms / 1000 % 60, ms % 1000 * 1000⟩

/-- Embedding of `date_to_java_sql_date(d)`: `(d - date(1970, 1, 1)).days`,
the difference of the proleptic Gregorian ordinals. -/
def date_to_java_sql_date (d : PyDate) : Int :=
  (toOrdinal d : Int) - (EPOCH_ORDINAL : Int)

/-- Embedding of `date_from_java_sql_date(n)`:
`date(1970, 1, 1) + timedelta(days=n)`, i.e. the date with ordinal
`EPOCH_ORDINAL + n`. -/
def date_from_java_sql_date (n : Int) : PyDate :=
  fromOrdinal ((EPOCH_ORDINAL + n).toNat)

/-- Embedding of `datetime_to_java_sql_timestamp(d)`: with
`td = d - datetime(1970, 1, 1)` (whose normalized components are
`days = ordinal difference`, `seconds = seconds of day`,
`microseconds = microseconds of second`, the last two non-negative),
return `td.microseconds / 1000 + (td.seconds + td.days * 24 * 3600) * 1000`. -/
def datetime_to_java_sql_timestamp (dt : PyDateTime) : Int :=
  let days : Int := (toOrdinal dt.date : Int) - (EPOCH_ORDINAL : Int)
  let seconds : Int := ((dt.time.hour * 3600 + dt.time.minute * 60 + dt.time.second : Nat) : Int)
  let microseconds : Int := (dt.time.microsecond : Int)
  microseconds / 1000 + (seconds + days * 24 * 3600) * 1000

/-- Embedding of `datetime_from_java_sql_timestamp(n)`:
`datetime(1970, 1, 1) + timedelta(milliseconds=n)` (floor split of `n`
milliseconds into whole days and a non-negative time of day). -/
def datetime_from_java_sql_timestamp (n : Int) : PyDateTime :=
  let days : Int := n / 86400000
  let ms : Nat := (n % 86400000).toNat
  ⟨fromOrdinal ((EPOCH_ORDINAL + days).toNat),
   ⟨ms / 3600000, ms / 60000 % 60, ms / 1000 % 60, ms % 1000 * 1000⟩⟩

/-! ## Parameter marshalling (phoenixdb/cursor.py lines 265-286)

`Cursor._transform_parameters` walks `zip(parameters, parameter_data_types)`
building one `common_pb2.TypedValue` per pair.  Native values are opaque
here; a data type is the `(rep, field_name, cast_type, mutate_type)` tuple
produced by `_convert_class` (the decode-side `cast_type` plays no role in
this direction).  A protobuf slot is `none` while unset; `setattr` with the
`None` field name of the OBJECT fallback raises TypeError. -/

inductive PyValue where
  | int (n : Int)
  | str (s : String)
  | bool (b : Bool)
  | date (d : PyDate)
  | time (t : PyTime)
  | datetime (dt : PyDateTime)
deriving DecidableEq, Repr

inductive Rep where
  | STRING | BIG_DECIMAL | BOOLEAN | BYTE | SHORT | INTEGER | LONG | FLOAT | DOUBLE
  | BYTE_STRING | JAVA_SQL_DATE | JAVA_SQL_TIME | JAVA_SQL_TIMESTAMP | OBJECT | NULL
deriving DecidableEq, Repr

inductive FieldName where
  | string_value | boolean_value | number_value | double_value | bytes_value
deriving DecidableEq, Repr

structure DataType where
  rep : Rep
  field_name : Option FieldName
  mutate : Option (PyValue → PyValue)

structure TypedValue where
  null : Bool := false
  type : Rep := .OBJECT
  string_value : Option PyValue := none
  boolean_value : Option PyValue := none
  number_value : Option PyValue := none
  double_value : Option PyValue := none
  bytes_value : Option PyValue := none
deriving DecidableEq, Repr

/-- Embedding of `setattr(typed_value, field_name, value)`. -/
def set_field (tv : TypedValue) (fn : FieldName) (v : PyValue) : TypedValue :=
  match fn with
  | .string_value => { tv with string_value := some v }
  | .boolean_value => { tv with boolean_value := some v }
  | .number_value => { tv with number_value := some v }
  | .double_value => { tv with double_value := some v }
  | .bytes_value => { tv with bytes_value := some v }

/-- Slot accessor, for stating which slots a `TypedValue` populates. -/
def get_field (tv : TypedValue) (fn : FieldName) : Option PyValue :=
  match fn with
  | .string_value => tv.string_value
  | .boolean_value => tv.boolean_value
  | .number_value => tv.number_value
  | .double_value => tv.double_value
  | .bytes_value => tv.bytes_value

/-- Mutator application: `if data_type[3] is not None: value = data_type[3](value)`. -/
def apply_mutate (dt : DataType) (v : PyValue) : PyValue :=
  match dt.mutate with
  | some m => m v
  | none => v

/-- Body of the `_transform_parameters` loop for one `(value, data_type)`
pair; `none` as the value is Python `None`. -/
def transform_one (value : Option PyValue) (data_type : DataType) : Except PyErr TypedValue :=
  match value with
  | none => .ok { null := true, type := .NULL }
  | some v =>
    match data_type.field_name with
    | some fn => .ok (set_field { null := false, type := data_type.rep } fn (apply_mutate data_type v))
    | none => .error .typeError

/-- Embedding of `Cursor._transform_parameters(parameters)`: the loop over
`zip(parameters, self._parameter_data_types)`. -/
def transform_parameters : List (Option PyValue) → List DataType → Except PyErr (List TypedValue)
  | v :: vs, dt :: dts =>
    match transform_one v dt, transform_parameters vs dts with
    | .ok tv, .ok tvs => .ok (tv :: tvs)
    | .error e, _ => .error e
    | .ok _, .error e => .error e
  | _, _ => .ok []

/-! ## Protocol version resolution -/

/-- Modelled from the spec: the code that resolves the protocol version is
the package's `connect` entry point, which is not part of the sources
under verification (only `parse_url` and `AvaticaClient.__init__`, which
do not read it, are).  Per the spec, a `v=<major>.<minor>[.<patch>]`
query parameter is restricted to an enumerated allow-list of supported
protocol versions. -/
def SUPPORTED_AVATICA_VERSIONS : List String :=
  ["1.2.0", "1.3.0", "1.4.0", "1.5.0", "1.6.0", "1.7.1", "1.8.0"]

/-- Modelled from the spec: the fixed baseline protocol version used when
no `v=` parameter is present (the final, binary-envelope generation the
spec declares authoritative). -/
def DEFAULT_AVATICA_VERSION : String := "1.8.0"

/-- Modelled from the spec: version resolution at client construction.
`none` means the connection URL carries no `v=` query parameter; an
unrecognized value is a configuration error raised before any request is
attempted (so it is never retried). -/
def resolve_avatica_version : Option String → Except PyErr String
  | none => .ok DEFAULT_AVATICA_VERSION
  | some v =>
    if SUPPORTED_AVATICA_VERSIONS.contains v then .ok v
    else .error (.programmingError "unsupported protocol version")

/-! ## Theorems: transport retry (claims C3, C4) -/

/-- Run of `_post_request` against a transport whose every attempt raises:
each unit of budget is consumed by one close/reconnect/sleep cycle, the
sleeps are annotated with the budget remaining just before each decrement,
and the final raise wraps the cause of the last attempt. -/
theorem post_request_all_exn (attempts : Nat → AttemptResult) (causes : Nat → Nat)
    (h : ∀ i, attempts i = .exn (causes i)) :
    ∀ (N i : Nat) (log : List RetryEvent),
      post_request attempts i N log
        = (.interfaceError (causes (i + N)),
           log ++ (List.range N).map (fun j => .reconnectSleep (N - j))) := by
  intro N
  induction N with
  | zero =>
    intro i log
    simp [post_request, h i]
  | succ n ih =>
    intro i log
    have hstep : post_request attempts i (n + 1) log
        = post_request attempts (i + 1) n (log ++ [.reconnectSleep (n + 1)]) := by
      rw [post_request, h i]
    rw [hstep, ih]
    refine Prod.ext ?_ ?_
    · show PostOutcome.interfaceError (causes (i + 1 + n)) = .interfaceError (causes (i + (n + 1)))
      have : i + 1 + n = i + (n + 1) := by omega
      rw [this]
    · show log ++ [RetryEvent.reconnectSleep (n + 1)]
            ++ (List.range n).map (fun j => .reconnectSleep (n - j))
        = log ++ (List.range (n + 1)).map (fun j => .reconnectSleep (n + 1 - j))
      rw [List.range_succ_eq_map, List.map_cons, List.map_map, List.append_assoc]
      have : ((fun j => RetryEvent.reconnectSleep (n + 1 - j)) ∘ Nat.succ)
          = fun j => RetryEvent.reconnectSleep (n - j) := by
        funext j
        show RetryEvent.reconnectSleep (n + 1 - (j + 1)) = RetryEvent.reconnectSleep (n - j)
        have : n + 1 - (j + 1) = n - j := by omega
        rw [this]
      rw [this]
      rfl

/-- Run of `_post_request` when every attempt either raises or answers 503:
either way one unit of budget is consumed per retry, so the budget
annotations of the logged sleeps count down from the initial budget. -/
theorem post_request_budgets (attempts : Nat → AttemptResult)
    (h : ∀ i, (∃ c, attempts i = .exn c) ∨ attempts i = .response SERVICE_UNAVAILABLE) :
    ∀ (N i : Nat) (log : List RetryEvent),
      ((post_request attempts i N log).2).map RetryEvent.budget
        = log.map RetryEvent.budget ++ (List.range N).map (fun j => N - j) := by
  intro N
  induction N with
  | zero =>
    intro i log
    rcases h i with ⟨c, hc⟩ | hc <;> simp [post_request, hc, SERVICE_UNAVAILABLE]
  | succ n ih =>
    intro i log
    have step :
        ∀ ev : RetryEvent, ev.budget = n + 1 →
          (log ++ [ev]).map RetryEvent.budget ++ (List.range n).map (fun j => n - j)
            = log.map RetryEvent.budget ++ (List.range (n + 1)).map (fun j => n + 1 - j) := by
      intro ev hev
      rw [List.range_succ_eq_map, List.map_cons, List.map_map, List.map_append,
        List.append_assoc]
      have h2 : ((fun j => n + 1 - j) ∘ Nat.succ) = fun j => n - j := by
        funext j
        show n + 1 - (j + 1) = n - j
        omega
      rw [h2]
      simp [hev]
    rcases h i with ⟨c, hc⟩ | hc
    · have hstep : post_request attempts i (n + 1) log
          = post_request attempts (i + 1) n (log ++ [.reconnectSleep (n + 1)]) := by
        rw [post_request, hc]
      rw [hstep, ih]
      exact step (.reconnectSleep (n + 1)) rfl
    · have hstep : post_request attempts i (n + 1) log
          = post_request attempts (i + 1) n (log ++ [.sleepOnly (n + 1)]) := by
        rw [post_request, hc]
        rfl
      rw [hstep, ih]
      exact step (.sleepOnly (n + 1)) rfl

/-- Claim C3: with retry budget `N` fixed at construction, a transport whose
every POST attempt raises a transport-level exception makes `_post_request`
perform exactly `N` close-reconnect-sleep cycles — one per remaining unit
of budget, the budget counting down and never replenished — and then raise
InterfaceError wrapping the cause of the last attempt. -/
theorem claim_C3_retry_budget (N : Nat) (attempts : Nat → AttemptResult) (causes : Nat → Nat)
    (h : ∀ i, attempts i = .exn (causes i)) :
    post_request attempts 0 N []
      = (.interfaceError (causes N),
         (List.range N).map (fun j => .reconnectSleep (N - j)))
    ∧ ((List.range N).map (fun j => RetryEvent.reconnectSleep (N - j))).length = N := by
  have := post_request_all_exn attempts causes h N 0 []
  simp only [Nat.zero_add, List.nil_append] at this
  exact ⟨this, by simp⟩

/-- Witness for claim C3 at budget 3 against an always-raising transport. -/
theorem claim_C3_retry_budget_witness :
    post_request (fun i => .exn i) 0 3 []
      = (.interfaceError 3, (List.range 3).map (fun j => .reconnectSleep (3 - j))) :=
  (claim_C3_retry_budget 3 (fun i => .exn i) (fun i => i) (fun _ => rfl)).1

/-- Counterexample to claim C4 as stated: in the run with budget 2 against
an always-raising transport, the first sleep is `exp(-2)` seconds and the
second is `exp(-1)` seconds, so the successive delays strictly increase —
they are not strictly decreasing. -/
theorem claim_C4_counterexample :
    ((post_request (fun _ => .exn 0) 0 2 []).2).map RetryEvent.budget = [2, 1]
    ∧ Real.exp (-2) < Real.exp (-1) := by
  constructor
  · have := post_request_budgets (fun _ => .exn 0) (fun _ => .inl ⟨0, rfl⟩) 2 0 []
    simpa using this
  · exact Real.exp_lt_exp.mpr (by norm_num)

/-- Claim C4 (amended): every retry — after a transport exception or after a
503 — sleeps `exp(-remaining_budget)` with the budget counting down from
`N`, so over one logical request the successive sleep delays are strictly
increasing: the earliest retry waits the shortest, not the longest. -/
theorem claim_C4_backoff (attempts : Nat → AttemptResult)
    (h : ∀ i, (∃ c, attempts i = .exn c) ∨ attempts i = .response SERVICE_UNAVAILABLE)
    (N j1 j2 : Nat) (h1 : j1 < j2) (h2 : j2 < N) :
    ((post_request attempts 0 N []).2).map RetryEvent.budget
        = (List.range N).map (fun j => N - j)
    ∧ Real.exp (-((N - j1 : Nat) : ℝ)) < Real.exp (-((N - j2 : Nat) : ℝ)) := by
  constructor
  · have := post_request_budgets attempts h N 0 []
    simpa using this
  · have hlt : (N - j2 : Nat) < (N - j1 : Nat) := by omega
    exact Real.exp_lt_exp.mpr (by
      have : ((N - j2 : Nat) : ℝ) < ((N - j1 : Nat) : ℝ) := by exact_mod_cast hlt
      linarith)

/-- Witness for the amended claim C4: budget 2, always-raising transport,
comparing the delays of the first and second retries. -/
theorem claim_C4_backoff_witness :
    ((post_request (fun _ => .exn 0) 0 2 []).2).map RetryEvent.budget
        = (List.range 2).map (fun j => 2 - j)
    ∧ Real.exp (-((2 - 0 : Nat) : ℝ)) < Real.exp (-((2 - 1 : Nat) : ℝ)) :=
  claim_C4_backoff (fun _ => .exn 0) (fun _ => .inl ⟨0, rfl⟩) 2 0 1 (by decide) (by decide)

/-! ## Theorems: SQLSTATE classification (claim C2) -/

/-- Claim C2: SQLSTATE classification scans the fixed prefix table in order,
the table lists a more specific prefix before any prefix of it (so the
5-character entry beats its 2-character parent), the raised error carries
the message, code and state, and — on messages carrying no embedded error
pattern — state 42000 raises ProgrammingError, 23000 raises IntegrityError,
22018 raises IntegrityError (not its parent class 22 = DataError), and the
unmatched state 99999 falls through to InternalError with the raw
message. -/
theorem claim_C2_sqlstate_classification :
    SQLSTATE_ERROR_CLASSES.Pairwise (fun a b => str_startswith b.1 a.1 = false)
    ∧ (∀ (code : Int) (state msg : String) (e : SqlError),
        raise_sql_error code state msg = some e →
          e.message = msg ∧ e.code = some code ∧ e.sqlstate = some state)
    ∧ (∀ (code : Int) (msg : String), find_sql_error_pattern msg.data = none →
        parse_error_protobuf code "42000" msg
            = ⟨.programmingError, msg, some code, some "42000"⟩
        ∧ parse_error_protobuf code "23000" msg
            = ⟨.integrityError, msg, some code, some "23000"⟩
        ∧ parse_error_protobuf code "22018" msg
            = ⟨.integrityError, msg, some code, some "22018"⟩
        ∧ parse_error_protobuf code "99999" msg
            = ⟨.internalError, msg, none, none⟩) := by
  refine ⟨by decide, ?_, ?_⟩
  · intro code state msg e he
    unfold raise_sql_error at he
    rcases hf : SQLSTATE_ERROR_CLASSES.find? (fun pe => str_startswith state pe.1) with _ | pe
    · rw [hf] at he
      exact Option.noConfusion he
    · rw [hf] at he
      injection he with h1
      subst h1
      exact ⟨rfl, rfl, rfl⟩
  · intro code msg h
    have h42 : SQLSTATE_ERROR_CLASSES.find? (fun pe => str_startswith "42000" pe.1)
        = some ("42", .programmingError) := by decide
    have h23 : SQLSTATE_ERROR_CLASSES.find? (fun pe => str_startswith "23000" pe.1)
        = some ("23", .integrityError) := by decide
    have h22018 : SQLSTATE_ERROR_CLASSES.find? (fun pe => str_startswith "22018" pe.1)
        = some ("22018", .integrityError) := by decide
    have h99 : SQLSTATE_ERROR_CLASSES.find? (fun pe => str_startswith "99999" pe.1)
        = none := by decide
    refine ⟨?_, ?_, ?_, ?_⟩ <;>
      · unfold parse_error_protobuf parse_and_raise_sql_error raise_sql_error
        rw [h]
        first
        | (rw [h42]; rfl)
        | (rw [h23]; rfl)
        | (rw [h22018]; rfl)
        | (rw [h99]; rfl)

/-- Witness for claim C2 on a concrete pattern-free message and code. -/
theorem claim_C2_sqlstate_classification_witness :
    parse_error_protobuf 1012 "42000" "syntax error"
        = ⟨.programmingError, "syntax error", some 1012, some "42000"⟩
    ∧ parse_error_protobuf 1012 "99999" "syntax error"
        = ⟨.internalError, "syntax error", none, none⟩ :=
  ⟨(claim_C2_sqlstate_classification.2.2 1012 "syntax error" (by decide)).1,
   (claim_C2_sqlstate_classification.2.2 1012 "syntax error" (by decide)).2.2.2⟩

/-! ## Theorems: empty frames at the cursor (claims C7, C10) -/

/-- Counterexample to claim C7 as stated: delivering the empty not-done
frame `{offset 7, done false, rows []}` to `_set_frame` raises nothing —
it returns normally with the frame stored and no position, because the
InternalError guard exists only as commented-out code. -/
theorem claim_C7_counterexample :
    set_frame (⟨none, none, [], []⟩ : CursorState Nat) (some ⟨7, false, []⟩)
      = ⟨some ⟨7, false, []⟩, none, [], []⟩ := rfl

/-- Claim C7 (amended): a frame with an empty row list and `done = false`
is accepted silently by the paginator: `_set_frame` stores it, clears the
position, raises no error, and a subsequent `fetchone` returns `None`
(the InternalError check is present in the source only as commented-out
code, cursor.py lines 295-297). -/
theorem claim_C7_empty_frame_accepted {α : Type} (s : CursorState α) (off : Nat) :
    (set_frame s (some ⟨off, false, []⟩)).frame = some ⟨off, false, []⟩
    ∧ (set_frame s (some ⟨off, false, []⟩)).pos = none
    ∧ fetchone (set_frame s (some ⟨off, false, []⟩))
        = .ok (none, set_frame s (some ⟨off, false, []⟩)) := by
  refine ⟨rfl, rfl, ?_⟩
  simp [set_frame, fetchone]

/-- Claim C10: when the current frame has an empty row list, `fetchone`
returns `None` immediately with the state unchanged — no fetch call is
issued and the fetch log does not grow — regardless of the frame's done
flag; and `_set_frame` establishes a read position exactly when the frame
has at least one row. -/
theorem claim_C10_empty_frame_fetchone {α : Type} (s : CursorState α) (off : Nat) (d : Bool) :
    (set_frame s (some ⟨off, d, []⟩)).pos = none
    ∧ fetchone (set_frame s (some ⟨off, d, []⟩))
        = .ok (none, set_frame s (some ⟨off, d, []⟩))
    ∧ (∀ f : Frame α,
        (set_frame s (some f)).pos = if f.rows.isEmpty then none else some 0) := by
  refine ⟨rfl, ?_, fun f => rfl⟩
  simp [set_frame, fetchone]

/-! ## Theorems: frame pagination (claim C1) -/

/-- Well-formedness propagates to the last frame: the final frame of a
well-formed sequence is the one marked done. -/
theorem well_formed_last_done {α : Type} :
    ∀ (rest : List (Frame α)) (f : Frame α), well_formed_from f rest = true →
      (rest.getLastD f).done = true := by
  intro rest
  induction rest with
  | nil => intro f hwf; exact hwf
  | cons g rest' ih =>
    intro f hwf
    simp only [well_formed_from, Bool.and_eq_true] at hwf
    rw [List.getLastD_cons]
    exact ih g hwf.2

/-- In a well-formed sequence the successor offsets are exactly the
cumulative row counts: frame `i + 1` sits at
`offset i + |rows i| = |rows 0| + ... + |rows i|`. -/
theorem offsets_cumulative {α : Type} :
    ∀ (rest : List (Frame α)) (f : Frame α),
      well_formed_from f rest = true →
      rest.map (fun g => g.offset) = cumulative_offsets f.offset ((f :: rest).dropLast) := by
  intro rest
  induction rest with
  | nil => intro f _; rfl
  | cons g rest' ih =>
    intro f hwf
    simp only [well_formed_from, Bool.and_eq_true, beq_iff_eq] at hwf
    obtain ⟨⟨⟨_, _⟩, hoff⟩, hwf'⟩ := hwf
    rw [List.map_cons, ih g hwf']
    rw [show (f :: g :: rest').dropLast = f :: (g :: rest').dropLast from rfl]
    rw [cumulative_offsets, ← hoff]

/-- One unfolding of the `fetchall` loop when `fetchone` yields a row. -/
theorem fetchall_aux_step_some {α : Type} {fuel : Nat} {s s1 : CursorState α} {r : α}
    (h : fetchone s = .ok (some r, s1)) :
    fetchall_aux (fuel + 1) s
      = match fetchall_aux fuel s1 with
        | .error e => .error e
        | .ok (rs, s2) => .ok (r :: rs, s2) := by
  rw [fetchall_aux, h]

/-- One unfolding of the `fetchall` loop when `fetchone` yields `None`. -/
theorem fetchall_aux_step_none {α : Type} {fuel : Nat} {s s1 : CursorState α}
    (h : fetchone s = .ok (none, s1)) :
    fetchall_aux (fuel + 1) s = .ok ([], s1) := by
  rw [fetchall_aux, h]

/-- Central run of the `fetchall` loop: starting inside a frame `f` at a
valid position `p` with the well-formed frames `rest` still pending, the
loop returns the remaining rows of `f` followed by all rows of `rest` in
order, requests exactly the offsets recorded in `rest`, consumes all
pending frames, and stops on the done-marked last frame with the position
cleared. -/
theorem fetchall_aux_run {α : Type} :
    ∀ (fuel : Nat) (f : Frame α) (p : Nat) (rest : List (Frame α)) (log : List Nat),
      well_formed_from f rest = true →
      p < f.rows.length →
      f.rows.length - p + (rest.map (fun g => g.rows.length)).sum + 1 ≤ fuel →
      fetchall_aux fuel ⟨some f, some p, rest, log⟩
        = .ok (f.rows.drop p ++ (rest.map (fun g => g.rows)).flatten,
               ⟨some (rest.getLastD f), none, [], log ++ rest.map (fun g => g.offset)⟩) := by
  intro fuel
  induction fuel with
  | zero =>
    intro f p rest log hwf hp hfuel
    omega
  | succ fuel ih =>
    intro f p rest log hwf hp hfuel
    have hrow : f.rows.get? p = some (f.rows.get ⟨p, hp⟩) := List.get?_eq_get hp
    by_cases hend : p + 1 ≥ f.rows.length
    · have hp1 : p + 1 = f.rows.length := by omega
      have hdrop : f.rows.drop p = [f.rows.get ⟨p, hp⟩] := by
        rw [List.drop_eq_getElem_cons hp, hp1, List.drop_length]
        rfl
      cases rest with
      | nil =>
        have hdone : f.done = true := hwf
        have hfo : fetchone (⟨some f, some p, [], log⟩ : CursorState α)
            = .ok (some (f.rows.get ⟨p, hp⟩), ⟨some f, none, [], log⟩) := by
          simp only [fetchone, hrow, if_pos hend, hdone, if_true]
        obtain ⟨fuel', rfl⟩ : ∃ fuel', fuel = fuel' + 1 := by
          refine ⟨fuel - 1, ?_⟩
          simp only [List.map_nil, List.sum_nil] at hfuel
          omega
        rw [fetchall_aux_step_some hfo,
          fetchall_aux_step_none
            (show fetchone (⟨some f, none, [], log⟩ : CursorState α)
              = .ok (none, ⟨some f, none, [], log⟩) from rfl)]
        simp [hdrop]
      | cons g rest' =>
        simp only [well_formed_from, Bool.and_eq_true, Bool.not_eq_true',
          beq_iff_eq] at hwf
        obtain ⟨⟨⟨hdone, hne⟩, hoff⟩, hwf'⟩ := hwf
        have hfo : fetchone (⟨some f, some p, g :: rest', log⟩ : CursorState α)
            = .ok (some (f.rows.get ⟨p, hp⟩),
                ⟨some g, if g.rows.isEmpty then none else some 0, rest',
                 log ++ [f.offset + f.rows.length]⟩) := by
          simp only [fetchone, hrow, if_pos hend, hdone, Bool.false_eq_true, if_false,
            set_frame, List.tail_cons, List.headD_cons]
        by_cases hg : g.rows.isEmpty
        · -- an empty successor frame: well-formedness forces it to be last and done
          cases rest' with
          | cons g2 rest'' =>
            simp only [well_formed_from, Bool.and_eq_true, Bool.not_eq_true'] at hwf'
            rw [hwf'.1.1.2] at hg
            exact absurd hg (by simp)
          | nil =>
            rw [if_pos hg] at hfo
            obtain ⟨fuel', rfl⟩ : ∃ fuel', fuel = fuel' + 1 := by
              refine ⟨fuel - 1, ?_⟩
              simp only [List.map_cons, List.sum_cons, List.map_nil, List.sum_nil] at hfuel
              omega
            rw [fetchall_aux_step_some hfo,
              fetchall_aux_step_none
                (show fetchone (⟨some g, none, [],
                    log ++ [f.offset + f.rows.length]⟩ : CursorState α)
                  = .ok (none, ⟨some g, none, [],
                      log ++ [f.offset + f.rows.length]⟩) from rfl)]
            have hgrows : g.rows = [] := List.isEmpty_iff.mp hg
            simp [hdrop, hgrows, hoff]
        · rw [if_neg hg] at hfo
          have hglen : 0 < g.rows.length := by
            cases hgr : g.rows with
            | nil => rw [hgr] at hg; exact absurd rfl hg
            | cons a l => simp [hgr]
          have hbound : g.rows.length - 0 + (rest'.map (fun x => x.rows.length)).sum + 1
              ≤ fuel := by
            simp only [List.map_cons, List.sum_cons] at hfuel
            omega
          rw [fetchall_aux_step_some hfo,
            ih g 0 rest' (log ++ [f.offset + f.rows.length]) hwf' hglen hbound]
          rw [List.drop_zero]
          simp only [hdrop, List.map_cons, List.flatten_cons, List.getLastD_cons]
          rw [hoff]
          simp
    · push_neg at hend
      have hfo : fetchone (⟨some f, some p, rest, log⟩ : CursorState α)
          = .ok (some (f.rows.get ⟨p, hp⟩), ⟨some f, some (p + 1), rest, log⟩) := by
        simp only [fetchone, hrow, if_neg (by omega : ¬ p + 1 ≥ f.rows.length)]
      have hbound : f.rows.length - (p + 1) + (rest.map (fun g => g.rows.length)).sum + 1
          ≤ fuel := by omega
      rw [fetchall_aux_step_some hfo, ih f (p + 1) rest log hwf hend hbound]
      rw [show f.rows.drop p = f.rows.get ⟨p, hp⟩ :: f.rows.drop (p + 1) from by
        rw [List.drop_eq_getElem_cons hp]
        rfl]
      rfl

/-- Claim C1: for well-formed frames `F0 .. Fk` with `F0.offset = 0` and
`done` only on `Fk`, `fetchall` from the freshly set first frame returns
all rows in their original order, issues exactly `k` fetch calls whose
requested offsets are the cumulative row counts
(`previous.offset + len(previous.rows)` each time), and terminates exactly
when the done-marked final frame has been positionally exhausted. -/
theorem claim_C1_pagination {α : Type} (F0 : Frame α) (rest : List (Frame α))
    (hoff0 : F0.offset = 0) (hwf : well_formed_from F0 rest = true) :
    fetchall (set_frame ⟨none, none, rest, []⟩ (some F0))
      = .ok (((F0 :: rest).map (fun g => g.rows)).flatten,
             ⟨some (rest.getLastD F0), none, [], rest.map (fun g => g.offset)⟩)
    ∧ rest.map (fun g => g.offset) = cumulative_offsets 0 ((F0 :: rest).dropLast)
    ∧ (rest.map (fun g => g.offset)).length = rest.length
    ∧ (rest.getLastD F0).done = true := by
  refine ⟨?_, ?_, by simp, well_formed_last_done rest F0 hwf⟩
  · by_cases h0 : F0.rows.isEmpty
    · cases rest with
      | cons g rest' =>
        simp only [well_formed_from, Bool.and_eq_true, Bool.not_eq_true'] at hwf
        rw [hwf.1.1.2] at h0
        exact absurd h0 (by simp)
      | nil =>
        have hrows : F0.rows = [] := List.isEmpty_iff.mp h0
        simp [fetchall, set_frame, h0, rows_remaining, fetchall_aux, fetchone, hrows]
    · have hset : set_frame (⟨none, none, rest, []⟩ : CursorState α) (some F0)
          = ⟨some F0, some 0, rest, []⟩ := by
        simp [set_frame, h0]
      have hglen : 0 < F0.rows.length := by
        cases hgr : F0.rows with
        | nil => rw [hgr] at h0; exact absurd rfl h0
        | cons a l => simp [hgr]
      rw [hset]
      rw [show fetchall (⟨some F0, some 0, rest, []⟩ : CursorState α)
          = fetchall_aux (rows_remaining (⟨some F0, some 0, rest, []⟩ : CursorState α) + 1)
              ⟨some F0, some 0, rest, []⟩ from rfl]
      rw [fetchall_aux_run (rows_remaining (⟨some F0, some 0, rest, []⟩ : CursorState α) + 1)
        F0 0 rest [] hwf hglen (by simp [rows_remaining])]
      simp
  · rw [offsets_cumulative rest F0 hwf, hoff0]

/-- Witness for claim C1: three well-formed frames of two, one and two
rows; the run returns the five rows in order and requests offsets 2 and
3. -/
theorem claim_C1_pagination_witness :
    well_formed_from (⟨0, false, [10, 20]⟩ : Frame Nat)
        [⟨2, false, [30]⟩, ⟨3, true, [40, 50]⟩] = true
    ∧ fetchall (set_frame (⟨none, none, [⟨2, false, [30]⟩, ⟨3, true, [40, 50]⟩], []⟩
          : CursorState Nat) (some ⟨0, false, [10, 20]⟩))
        = .ok ([10, 20, 30, 40, 50], ⟨some ⟨3, true, [40, 50]⟩, none, [], [2, 3]⟩) := by
  refine ⟨by decide, ?_⟩
  exact (claim_C1_pagination (⟨0, false, [10, 20]⟩ : Frame Nat)
    [⟨2, false, [30]⟩, ⟨3, true, [40, 50]⟩] rfl (by decide)).1

/-! ## Theorems: parameter marshalling (claim C6) -/

/-- Per-position unfolding of the `_transform_parameters` loop: a successful
run maps position `i` of `zip(parameters, parameter_data_types)` through
`transform_one`. -/
theorem transform_parameters_get :
    ∀ (vs : List (Option PyValue)) (ds : List DataType) (out : List TypedValue),
      transform_parameters vs ds = .ok out →
      ∀ (i : Nat) (v : Option PyValue) (dt : DataType),
        vs.get? i = some v → ds.get? i = some dt →
        ∃ tv, out.get? i = some tv ∧ transform_one v dt = .ok tv := by
  intro vs
  induction vs with
  | nil =>
    intro ds out h i v dt hv hd
    simp at hv
  | cons v0 vs ih =>
    intro ds out h i v dt hv hd
    cases ds with
    | nil => simp at hd
    | cons dt0 ds =>
      rw [transform_parameters] at h
      rcases ht : transform_one v0 dt0 with e | tv0 <;> rw [ht] at h
      · exact Except.noConfusion h
      · rcases hr : transform_parameters vs ds with e | tvs <;> rw [hr] at h
        · exact Except.noConfusion h
        · injection h with h1
          subst h1
          cases i with
          | zero =>
            injection hv with hv1
            injection hd with hd1
            subst hv1
            subst hd1
            exact ⟨tv0, rfl, ht⟩
          | succ j =>
            exact ih ds tvs hr j v dt hv hd

/-- Claim C6: in `_transform_parameters`, a `None` native value at any
position encodes to a TypedValue with the null flag set, the NULL tag and
no value slot populated, regardless of the parameter's declared type; a
non-`None` value encodes with `null = false`, the registered mutator
applied when one exists, the registered rep as the tag, and exactly the
registered slot populated. -/
theorem claim_C6_parameter_encoding :
    (∀ (vs : List (Option PyValue)) (ds : List DataType) (out : List TypedValue),
      transform_parameters vs ds = .ok out →
      (∀ (i : Nat) (dt : DataType), vs.get? i = some none → ds.get? i = some dt →
        out.get? i = some { null := true, type := Rep.NULL })
      ∧ (∀ (i : Nat) (v : PyValue) (dt : DataType) (fn : FieldName),
          vs.get? i = some (some v) → ds.get? i = some dt → dt.field_name = some fn →
          out.get? i
            = some (set_field { null := false, type := dt.rep } fn (apply_mutate dt v))))
    ∧ (∀ (r : Rep) (fn fn' : FieldName) (v : PyValue), fn' ≠ fn →
        get_field (set_field { null := false, type := r } fn v) fn = some v
        ∧ get_field (set_field { null := false, type := r } fn v) fn' = none)
    ∧ (∀ fn : FieldName, get_field { null := true, type := Rep.NULL } fn = none) := by
  refine ⟨?_, ?_, ?_⟩
  · intro vs ds out h
    constructor
    · intro i dt hv hd
      obtain ⟨tv, hout, htv⟩ := transform_parameters_get vs ds out h i none dt hv hd
      rw [show transform_one none dt = .ok { null := true, type := Rep.NULL } from rfl] at htv
      injection htv with h1
      rw [hout, h1]
    · intro i v dt fn hv hd hfn
      obtain ⟨tv, hout, htv⟩ := transform_parameters_get vs ds out h i (some v) dt hv hd
      rw [show transform_one (some v) dt
          = match dt.field_name with
            | some fn => .ok (set_field { null := false, type := dt.rep } fn (apply_mutate dt v))
            | none => .error .typeError from rfl, hfn] at htv
      injection htv with h1
      rw [hout, h1]
  · intro r fn fn' v hne
    cases fn <;> cases fn' <;>
      first
        | exact absurd rfl hne
        | exact ⟨rfl, rfl⟩
  · intro fn
    cases fn <;> rfl

/-- Witness for claim C6: one `None` parameter under a date type (with a
mutator registered) and one integer parameter, checked at both
positions. -/
theorem claim_C6_parameter_encoding_witness :
    ([{ null := true, type := Rep.NULL },
      set_field { null := false, type := Rep.INTEGER } .number_value (.int 5)]
        : List TypedValue).get? 0 = some { null := true, type := Rep.NULL }
    ∧ ([{ null := true, type := Rep.NULL },
        set_field { null := false, type := Rep.INTEGER } .number_value (.int 5)]
          : List TypedValue).get? 1
        = some (set_field
            { null := false, type := (⟨Rep.INTEGER, some .number_value, none⟩ : DataType).rep }
            .number_value
            (apply_mutate ⟨Rep.INTEGER, some .number_value, none⟩ (.int 5))) := by
  have h := claim_C6_parameter_encoding.1
    [none, some (.int 5)]
    [⟨Rep.JAVA_SQL_DATE, some .number_value, some (fun v => v)⟩,
     ⟨Rep.INTEGER, some .number_value, none⟩]
    [{ null := true, type := Rep.NULL },
     set_field { null := false, type := Rep.INTEGER } .number_value (.int 5)]
    rfl
  exact ⟨h.1 0 ⟨Rep.JAVA_SQL_DATE, some .number_value, some (fun v => v)⟩ rfl rfl,
    h.2 1 (.int 5) ⟨Rep.INTEGER, some .number_value, none⟩ .number_value rfl rfl rfl⟩

/-! ## Theorems: protocol version resolution (claim C9) -/

/-- Claim C9: construction resolves the protocol version from the `v=`
query parameter against the enumerated allow-list — an absent parameter
yields the fixed baseline version (itself in the allow-list), a listed
value is accepted, and an unrecognized value fails fast with a
configuration error rather than being retried. -/
theorem claim_C9_version_resolution :
    resolve_avatica_version none = .ok DEFAULT_AVATICA_VERSION
    ∧ DEFAULT_AVATICA_VERSION ∈ SUPPORTED_AVATICA_VERSIONS
    ∧ (∀ v, v ∈ SUPPORTED_AVATICA_VERSIONS → resolve_avatica_version (some v) = .ok v)
    ∧ (∀ v, v ∉ SUPPORTED_AVATICA_VERSIONS →
        resolve_avatica_version (some v)
          = .error (.programmingError "unsupported protocol version")) := by
  refine ⟨rfl, by decide, ?_, ?_⟩
  · intro v hv
    simp only [resolve_avatica_version, List.elem_iff.mpr hv, if_true]
  · intro v hv
    have hc : SUPPORTED_AVATICA_VERSIONS.contains v = false := by simpa using hv
    simp only [resolve_avatica_version, hc]
    rfl

/-- Witness for claim C9: the version string 9.9.9 is rejected and the
absent parameter resolves to the baseline. -/
theorem claim_C9_version_resolution_witness :
    resolve_avatica_version (some "9.9.9")
        = .error (.programmingError "unsupported protocol version")
    ∧ resolve_avatica_version none = .ok DEFAULT_AVATICA_VERSION :=
  ⟨claim_C9_version_resolution.2.2.2 "9.9.9" (by decide),
   claim_C9_version_resolution.1⟩

/-! ## Theorems: Jetty error-page scenario (claim C8) -/

/-- Claim C8: on a non-200 response whose HTML body is a Jetty error page
with `html > body > h2` title `HTTP ERROR: 500` and an
`html > body > p > pre` message embedding
`ERROR 1205 (42P00): table not found ->`, the client raises
ProgrammingError carrying message `table not found`, numeric code 1205
and SQLSTATE `42P00`. -/
theorem claim_C8_error_page_scenario :
    parse_error_page
      [.starttag "html", .starttag "body",
       .starttag "h2", .data "HTTP ERROR: 500", .endtag "h2",
       .starttag "p", .data "Problem accessing /. Reason:", .starttag "pre",
       .data "    java.lang.RuntimeException: ERROR 1205 (42P00): table not found -> SOMETABLE\n",
       .endtag "pre", .endtag "p", .endtag "body", .endtag "html"]
      = some ⟨.programmingError, "table not found", some 1205, some "42P00"⟩ := by
  decide

/-! ## Theorems: calendar arithmetic for the epoch conversions (claim C5) -/

/-- Leap-year test, in propositional form. -/
theorem isLeapYear_iff (y : Nat) :
    isLeapYear y = true ↔ (y % 4 = 0 ∧ (y % 100 ≠ 0 ∨ y % 400 = 0)) := by
  simp [isLeapYear]

/-- Day count of a year splits the day count before the next year. -/
theorem daysBeforeYear_succ (y : Nat) (hy : 1 ≤ y) :
    daysBeforeYear (y + 1) = daysBeforeYear y + daysInYear y := by
  have hiff := isLeapYear_iff y
  have hc : y - 1 + 1 = y := by omega
  have h4 := Nat.succ_div (y - 1) 4
  have h100 := Nat.succ_div (y - 1) 100
  have h400 := Nat.succ_div (y - 1) 400
  rw [hc] at h4 h100 h400
  by_cases hl : isLeapYear y = true
  · have hl' : y % 4 = 0 ∧ (y % 100 ≠ 0 ∨ y % 400 = 0) := hiff.mp hl
    have hdy : daysInYear y = 366 := by
      unfold daysInYear
      rw [if_pos hl]
    rw [hdy]
    unfold daysBeforeYear
    clear hiff hl hdy
    simp only [Nat.add_sub_cancel]
    by_cases d4 : 4 ∣ y <;> by_cases d100 : 100 ∣ y <;> by_cases d400 : 400 ∣ y <;>
      simp only [d4, d100, d400, if_true, if_false] at h4 h100 h400 <;>
      omega
  · have hl' : ¬(y % 4 = 0 ∧ (y % 100 ≠ 0 ∨ y % 400 = 0)) := fun hcc => hl (hiff.mpr hcc)
    have hdy : daysInYear y = 365 := by
      unfold daysInYear
      rw [if_neg hl]
    rw [hdy]
    unfold daysBeforeYear
    clear hiff hl hdy
    simp only [Nat.add_sub_cancel]
    by_cases d4 : 4 ∣ y <;> by_cases d100 : 100 ∣ y <;> by_cases d400 : 400 ∣ y <;>
      simp only [d4, d100, d400, if_true, if_false] at h4 h100 h400 <;>
      omega

/-- Monotonicity of the day count before a year. -/
theorem daysBeforeYear_mono {a b : Nat} (h : a ≤ b) :
    daysBeforeYear a ≤ daysBeforeYear b := by
  induction b, h using Nat.le_induction with
  | base => exact Nat.le_refl _
  | succ b hb ih =>
    have hstep : daysBeforeYear b ≤ daysBeforeYear (b + 1) := by
      cases Nat.eq_zero_or_pos b with
      | inl h0 =>
        subst h0
        decide
      | inr h1 =>
        have h2 := daysBeforeYear_succ b h1
        omega
    omega

/-- Every month has at least one day. -/
theorem daysInMonth_pos (y m : Nat) : 1 ≤ daysInMonth y m := by
  unfold daysInMonth
  split_ifs <;> omega

/-- Day count of a month splits the in-year day count before the next
month (month 13 standing for the end of the year). -/
theorem daysBeforeMonth_succ (y m : Nat) (h1 : 1 ≤ m) (h2 : m ≤ 12) :
    daysBeforeMonth y (m + 1) = daysBeforeMonth y m + daysInMonth y m := by
  interval_cases m <;>
    cases hl : isLeapYear y <;>
      simp [daysBeforeMonth, daysBeforeMonthBase, daysInMonth, hl]

/-- The in-year day count before month 13 is the length of the year. -/
theorem daysBeforeMonth_13 (y : Nat) : daysBeforeMonth y 13 = daysInYear y := by
  cases hl : isLeapYear y <;>
    simp [daysBeforeMonth, daysBeforeMonthBase, daysInYear, hl]

/-- Monotonicity of the in-year day count before a month. -/
theorem daysBeforeMonth_mono (y : Nat) {a b : Nat} (h1 : 1 ≤ a) (h2 : a ≤ b) (h3 : b ≤ 13) :
    daysBeforeMonth y a ≤ daysBeforeMonth y b := by
  revert h3
  induction b, h2 using Nat.le_induction with
  | base => intro _; exact Nat.le_refl _
  | succ b hb ih =>
    intro h3
    have hs := daysBeforeMonth_succ y b (by omega) (by omega)
    have hp := daysInMonth_pos y b
    have hi := ih (by omega)
    omega

/-- The day-of-year index of a valid day stays within the year. -/
theorem dayOfYear_le (y m d : Nat) (h1 : 1 ≤ m) (h2 : m ≤ 12) (h3 : d ≤ daysInMonth y m) :
    daysBeforeMonth y m + d ≤ daysInYear y := by
  have hsucc := daysBeforeMonth_succ y m h1 h2
  have hmono : daysBeforeMonth y (m + 1) ≤ daysBeforeMonth y 13 :=
    daysBeforeMonth_mono y (by omega) (by omega) (by omega)
  have h13 := daysBeforeMonth_13 y
  omega

/-- Correctness of the year search: starting at `y0` with the day count
past `y0`'s beginning, the search lands on the target year with the
day-of-year index intact. -/
theorem yearFromDay_spec :
    ∀ (gap y0 k fuel : Nat), 1 ≤ y0 → 1 ≤ k → k ≤ daysInYear (y0 + gap) → gap ≤ fuel →
      yearFromDay y0 (daysBeforeYear (y0 + gap) - daysBeforeYear y0 + k) fuel
        = (y0 + gap, k) := by
  intro gap
  induction gap with
  | zero =>
    intro y0 k fuel h1 hk1 hk2 hf
    rw [Nat.add_zero] at hk2 ⊢
    rw [Nat.sub_self, Nat.zero_add]
    cases fuel with
    | zero => rfl
    | succ fuel' => rw [yearFromDay, if_pos hk2]
  | succ gap ih =>
    intro y0 k fuel h1 hk1 hk2 hf
    have hyy : y0 + (gap + 1) = y0 + 1 + gap := by omega
    rw [hyy] at hk2 ⊢
    obtain ⟨fuel', rfl⟩ : ∃ f, fuel = f + 1 := ⟨fuel - 1, by omega⟩
    rw [yearFromDay]
    have hstep := daysBeforeYear_succ y0 h1
    have hmono : daysBeforeYear (y0 + 1) ≤ daysBeforeYear (y0 + 1 + gap) :=
      daysBeforeYear_mono (by omega)
    have hpos : 365 ≤ daysInYear y0 := by
      unfold daysInYear
      split_ifs <;> omega
    rw [if_neg (by omega)]
    have harg : daysBeforeYear (y0 + 1 + gap) - daysBeforeYear y0 + k - daysInYear y0
        = daysBeforeYear (y0 + 1 + gap) - daysBeforeYear (y0 + 1) + k := by
      omega
    rw [harg]
    exact ih (y0 + 1) k fuel' (by omega) hk1 hk2 (by omega)

/-- Correctness of the month search inside a year. -/
theorem monthFromDay_spec (y : Nat) :
    ∀ (gap m0 d fuel : Nat), 1 ≤ m0 → m0 + gap ≤ 12 → 1 ≤ d →
      d ≤ daysInMonth y (m0 + gap) → gap ≤ fuel →
      monthFromDay y m0 (daysBeforeMonth y (m0 + gap) - daysBeforeMonth y m0 + d) fuel
        = (m0 + gap, d) := by
  intro gap
  induction gap with
  | zero =>
    intro m0 d fuel h1 h2 hd1 hd2 hf
    rw [Nat.add_zero] at hd2 ⊢
    rw [Nat.sub_self, Nat.zero_add]
    cases fuel with
    | zero => rfl
    | succ fuel' => rw [monthFromDay, if_pos hd2]
  | succ gap ih =>
    intro m0 d fuel h1 h2 hd1 hd2 hf
    have hmm : m0 + (gap + 1) = m0 + 1 + gap := by omega
    rw [hmm] at hd2 h2 ⊢
    obtain ⟨fuel', rfl⟩ : ∃ f, fuel = f + 1 := ⟨fuel - 1, by omega⟩
    rw [monthFromDay]
    have hstep := daysBeforeMonth_succ y m0 h1 (by omega)
    have hmono : daysBeforeMonth y (m0 + 1) ≤ daysBeforeMonth y (m0 + 1 + gap) :=
      daysBeforeMonth_mono y (by omega) (by omega) (by omega)
    have hpos := daysInMonth_pos y m0
    rw [if_neg (by omega)]
    have harg : daysBeforeMonth y (m0 + 1 + gap) - daysBeforeMonth y m0 + d - daysInMonth y m0
        = daysBeforeMonth y (m0 + 1 + gap) - daysBeforeMonth y (m0 + 1) + d := by
      omega
    rw [harg]
    exact ih (m0 + 1) d fuel' (by omega) (by omega) hd1 hd2 (by omega)

/-- CPython round trip: `fromordinal(toordinal(d)) = d` on every valid
date. -/
theorem fromOrdinal_toOrdinal (d : PyDate) (h : d.Valid) :
    fromOrdinal (toOrdinal d) = d := by
  obtain ⟨hy1, hy2, hm1, hm2, hd1, hd2⟩ := h
  rcases d with ⟨y, m, dd⟩
  simp only at hy1 hy2 hm1 hm2 hd1 hd2
  have hk1 : 1 ≤ daysBeforeMonth y m + dd := by omega
  have hk2 : daysBeforeMonth y m + dd ≤ daysInYear y := dayOfYear_le y m dd hm1 hm2 hd2
  have hord : toOrdinal ⟨y, m, dd⟩ = daysBeforeYear y + (daysBeforeMonth y m + dd) := by
    show daysBeforeYear y + daysBeforeMonth y m + dd = _
    omega
  have hfuel : y - 1 ≤ toOrdinal ⟨y, m, dd⟩ := by
    rw [hord]
    unfold daysBeforeYear
    omega
  have hyy : 1 + (y - 1) = y := by omega
  have hyear := yearFromDay_spec (y - 1) 1 (daysBeforeMonth y m + dd)
    (toOrdinal ⟨y, m, dd⟩) (Nat.le_refl 1) hk1 (by rw [hyy]; exact hk2) hfuel
  rw [hyy] at hyear
  have hb1 : daysBeforeYear 1 = 0 := rfl
  rw [show daysBeforeYear y - daysBeforeYear 1 + (daysBeforeMonth y m + dd)
      = toOrdinal ⟨y, m, dd⟩ from by rw [hord, hb1]; omega] at hyear
  have hmm : 1 + (m - 1) = m := by omega
  have hmonth := monthFromDay_spec y (m - 1) 1 dd 12 (Nat.le_refl 1)
    (by omega) hd1 (by rw [hmm]; exact hd2) (by omega)
  rw [hmm] at hmonth
  have hbm1 : daysBeforeMonth y 1 = 0 := rfl
  rw [show daysBeforeMonth y m - daysBeforeMonth y 1 + dd = daysBeforeMonth y m + dd from by
    rw [hbm1]; omega] at hmonth
  unfold fromOrdinal
  rw [hyear]
  rw [show ((y, daysBeforeMonth y m + dd).1 : Nat) = y from rfl]
  rw [show ((y, daysBeforeMonth y m + dd).2 : Nat) = daysBeforeMonth y m + dd from rfl]
  rw [hmonth]

/-- The ordinal is an exact day count: the calendar successor advances it
by exactly one. -/
theorem toOrdinal_nextDay (d : PyDate) (h : d.Valid) :
    toOrdinal (nextDay d) = toOrdinal d + 1 := by
  obtain ⟨hy1, hy2, hm1, hm2, hd1, hd2⟩ := h
  rcases d with ⟨y, m, dd⟩
  simp only at hy1 hy2 hm1 hm2 hd1 hd2
  unfold nextDay
  simp only
  by_cases hc1 : dd < daysInMonth y m
  · rw [if_pos hc1]
    show daysBeforeYear y + daysBeforeMonth y m + (dd + 1)
        = daysBeforeYear y + daysBeforeMonth y m + dd + 1
    omega
  · rw [if_neg hc1]
    have hdd : dd = daysInMonth y m := by omega
    by_cases hc2 : m < 12
    · rw [if_pos hc2]
      have hsucc := daysBeforeMonth_succ y m hm1 (by omega)
      show daysBeforeYear y + daysBeforeMonth y (m + 1) + 1
          = daysBeforeYear y + daysBeforeMonth y m + dd + 1
      omega
    · rw [if_neg hc2]
      have hm12 : m = 12 := by omega
      subst hm12
      have hsucc : daysBeforeMonth y 13 = daysBeforeMonth y 12 + daysInMonth y 12 := by
        have h := daysBeforeMonth_succ y 12 (by omega) (by omega)
        simpa using h
      have h13 := daysBeforeMonth_13 y
      have hys := daysBeforeYear_succ y hy1
      have hbm1 : daysBeforeMonth (y + 1) 1 = 0 := rfl
      show daysBeforeYear (y + 1) + daysBeforeMonth (y + 1) 1 + 1
          = daysBeforeYear y + daysBeforeMonth y 12 + dd + 1
      omega

/-- Round trip of a whole-millisecond time of day through the wire
representation. -/
theorem time_round_trip (t : PyTime) (h : t.Valid) (hms : t.microsecond % 1000 = 0) :
    time_from_java_sql_time (time_to_java_sql_time t) = t := by
  obtain ⟨h1, h2, h3, h4⟩ := h
  rcases t with ⟨hh, mm, ss, uu⟩
  simp only at h1 h2 h3 h4 hms
  rw [show time_to_java_sql_time ⟨hh, mm, ss, uu⟩
      = ((hh * 60 + mm) * 60 + ss) * 1000 + uu / 1000 from rfl]
  simp only [time_from_java_sql_time, PyTime.mk.injEq]
  refine ⟨?_, ?_, ?_, ?_⟩ <;> omega

/-- The timestamp encoding splits at the 1970-01-01 midnight zero point
into the day count times 86400000 plus the millisecond of day. -/
theorem datetime_to_split (dt : PyDateTime) :
    datetime_to_java_sql_timestamp dt
      = date_to_java_sql_date dt.date * 86400000 + (time_to_java_sql_time dt.time : Int) := by
  rcases dt with ⟨d, t⟩
  rcases t with ⟨hh, mm, ss, uu⟩
  unfold datetime_to_java_sql_timestamp date_to_java_sql_date time_to_java_sql_time
    EPOCH_ORDINAL
  simp only
  omega

/-- Round trip of a valid whole-millisecond datetime through the wire
representation. -/
theorem datetime_round_trip (dt : PyDateTime) (h : dt.Valid)
    (hms : dt.time.microsecond % 1000 = 0) :
    datetime_from_java_sql_timestamp (datetime_to_java_sql_timestamp dt) = dt := by
  obtain ⟨hdv, htv⟩ := h
  rcases dt with ⟨d, t⟩
  rcases t with ⟨hh, mm, ss, uu⟩
  obtain ⟨h1, h2, h3, h4⟩ := htv
  simp only at h1 h2 h3 h4 hms hdv
  have hsplit : datetime_to_java_sql_timestamp ⟨d, ⟨hh, mm, ss, uu⟩⟩
      = ((toOrdinal d : Int) - 719163)
          * 86400000 + ((((hh * 60 + mm) * 60 + ss) * 1000 + uu / 1000 : Nat) : Int) := by
    rw [datetime_to_split]
    rfl
  rw [hsplit]
  have hSb : (((hh * 60 + mm) * 60 + ss) * 1000 + uu / 1000 : Nat) < 86400000 := by omega
  simp only [datetime_from_java_sql_timestamp, EPOCH_ORDINAL]
  have hdays : (((toOrdinal d : Int) - 719163) * 86400000
        + ((((hh * 60 + mm) * 60 + ss) * 1000 + uu / 1000 : Nat) : Int)) / 86400000
      = (toOrdinal d : Int) - 719163 := by
    omega
  have hmod : (((toOrdinal d : Int) - 719163) * 86400000
        + ((((hh * 60 + mm) * 60 + ss) * 1000 + uu / 1000 : Nat) : Int)) % 86400000
      = ((((hh * 60 + mm) * 60 + ss) * 1000 + uu / 1000 : Nat) : Int) := by
    omega
  rw [hdays, hmod]
  have hordn : ((((719163 : Nat) : Int)) + ((toOrdinal d : Int) - 719163)).toNat
      = toOrdinal d := by
    omega
  rw [hordn, fromOrdinal_toOrdinal d hdv]
  have hSn : ((((((hh * 60 + mm) * 60 + ss) * 1000 + uu / 1000 : Nat) : Int)).toNat)
      = (((hh * 60 + mm) * 60 + ss) * 1000 + uu / 1000 : Nat) := by
    omega
  rw [hSn]
  simp only [PyDateTime.mk.injEq, PyTime.mk.injEq]
  refine ⟨trivial, ?_, ?_, ?_, ?_⟩ <;> omega

/-- Claim C5 (amended): the epoch conversions are exact — the date
conversion is the exact day count since 1970-01-01 (epoch maps to zero and
the calendar successor adds one) and is inverted by the decoder on every
valid date; the time conversion is exactly
`((h*60+m)*60+s)*1000 + micros/1000`; the timestamp conversion uses the
same 1970-01-01 zero point; and decode(encode(v)) round-trips exactly on
every valid temporal value of whole-millisecond precision (sub-millisecond
microseconds are truncated by the integer division, so the unrestricted
round trip fails — see the counterexample). -/
theorem claim_C5_epoch_conversions :
    date_to_java_sql_date ⟨1970, 1, 1⟩ = 0
    ∧ (∀ d : PyDate, d.Valid →
        date_to_java_sql_date (nextDay d) = date_to_java_sql_date d + 1)
    ∧ (∀ d : PyDate, d.Valid →
        date_from_java_sql_date (date_to_java_sql_date d) = d)
    ∧ (∀ t : PyTime,
        time_to_java_sql_time t
          = ((t.hour * 60 + t.minute) * 60 + t.second) * 1000 + t.microsecond / 1000)
    ∧ (∀ dt : PyDateTime,
        datetime_to_java_sql_timestamp dt
          = date_to_java_sql_date dt.date * 86400000 + (time_to_java_sql_time dt.time : Int))
    ∧ (∀ t : PyTime, t.Valid → t.microsecond % 1000 = 0 →
        time_from_java_sql_time (time_to_java_sql_time t) = t)
    ∧ (∀ dt : PyDateTime, dt.Valid → dt.time.microsecond % 1000 = 0 →
        datetime_from_java_sql_timestamp (datetime_to_java_sql_timestamp dt) = dt) := by
  refine ⟨by decide, ?_, ?_, fun t => rfl, datetime_to_split, time_round_trip, datetime_round_trip⟩
  · intro d hd
    unfold date_to_java_sql_date
    rw [toOrdinal_nextDay d hd]
    push_cast
    omega
  · intro d hd
    unfold date_from_java_sql_date date_to_java_sql_date EPOCH_ORDINAL
    have hord : 1 ≤ toOrdinal d := by
      obtain ⟨hy1, hy2, hm1, hm2, hd1, hd2⟩ := hd
      unfold toOrdinal
      omega
    rw [show (((719163 : Nat) : Int) + ((toOrdinal d : Int) - ((719163 : Nat) : Int))).toNat
        = toOrdinal d from by omega]
    exact fromOrdinal_toOrdinal d hd

/-- Witness for claim C5 on a concrete date, time and datetime. -/
theorem claim_C5_epoch_conversions_witness :
    date_from_java_sql_date (date_to_java_sql_date ⟨2015, 7, 12⟩) = ⟨2015, 7, 12⟩
    ∧ time_from_java_sql_time (time_to_java_sql_time ⟨12, 34, 56, 789000⟩)
        = ⟨12, 34, 56, 789000⟩
    ∧ datetime_from_java_sql_timestamp
        (datetime_to_java_sql_timestamp ⟨⟨1969, 12, 31⟩, ⟨23, 59, 59, 999000⟩⟩)
        = ⟨⟨1969, 12, 31⟩, ⟨23, 59, 59, 999000⟩⟩ := by
  refine ⟨?_, ?_, ?_⟩
  · exact claim_C5_epoch_conversions.2.2.1 ⟨2015, 7, 12⟩ (by decide)
  · exact claim_C5_epoch_conversions.2.2.2.2.2.1 ⟨12, 34, 56, 789000⟩ (by decide) (by decide)
  · exact claim_C5_epoch_conversions.2.2.2.2.2.2 ⟨⟨1969, 12, 31⟩, ⟨23, 59, 59, 999000⟩⟩
      (by decide) (by decide)

/-- Counterexample to claim C5 as stated: the supported time value
00:00:00.000001 does not round-trip — its single microsecond is truncated
away by the floor division by 1000, so the decoder returns midnight
exactly. -/
theorem claim_C5_counterexample :
    (⟨0, 0, 0, 1⟩ : PyTime).Valid
    ∧ time_to_java_sql_time ⟨0, 0, 0, 1⟩ = 0
    ∧ time_from_java_sql_time (time_to_java_sql_time ⟨0, 0, 0, 1⟩) = ⟨0, 0, 0, 0⟩
    ∧ time_from_java_sql_time (time_to_java_sql_time ⟨0, 0, 0, 1⟩) ≠ ⟨0, 0, 0, 1⟩ := by
  refine ⟨?_, rfl, rfl, ?_⟩ <;> decide

end Phoenixdb

example : Phoenixdb.toOrdinal ⟨1970, 1, 1⟩ = 719163 := by decide
example : Phoenixdb.toOrdinal ⟨2015, 7, 12⟩ = 735791 := by decide
example : Phoenixdb.fromOrdinal 735791 = ⟨2015, 7, 12⟩ := by decide
example : Phoenixdb.date_to_java_sql_date ⟨2015, 7, 12⟩ = 16628 := by decide
example : Phoenixdb.date_from_java_sql_date (-1) = ⟨1969, 12, 31⟩ := by decide
example : Phoenixdb.time_to_java_sql_time ⟨12, 34, 56, 789000⟩ = 45296789 := by decide
example : Phoenixdb.time_from_java_sql_time 45296789 = ⟨12, 34, 56, 789000⟩ := by decide
example : Phoenixdb.datetime_to_java_sql_timestamp ⟨⟨1970, 1, 2⟩, ⟨0, 0, 0, 1000⟩⟩
    = 86400001 := by decide
example : Phoenixdb.datetime_from_java_sql_timestamp 86400001
    = ⟨⟨1970, 1, 2⟩, ⟨0, 0, 0, 1000⟩⟩ := by decide
example : Phoenixdb.datetime_to_java_sql_timestamp ⟨⟨1969, 12, 31⟩, ⟨23, 59, 59, 999000⟩⟩
    = -1 := by decide
example : Phoenixdb.datetime_from_java_sql_timestamp (-1)
    = ⟨⟨1969, 12, 31⟩, ⟨23, 59, 59, 999000⟩⟩ := by decide

example : (-5 : Int) / 1000 = -1 := by decide
example : (-5 : Int) % 1000 = 995 := by decide
example : Phoenixdb.raise_sql_error 10 "42000" "m"
    = some ⟨.programmingError, "m", some 10, some "42000"⟩ := by decide
example : Phoenixdb.find_sql_error_pattern
    "Remote driver error: RuntimeException: ERROR 1205 (42P00): table not found -> x".data
    = some (1205, "42P00", "table not found") := by decide
